import Mathlib

/-!
Verification of the retention-policy engine of phenixdotnet/docker-registry-ui.

The repository has two near-duplicate variants of the purge task:
* `registry/tasks.go` (one tag rule per repo rule; the "V1" definitions below), and
* a second variant (repo rules own an ordered list of tag rules; the "V2"
  definitions below).

Timestamps are modelled as integers counting seconds.  Go computes the age of a
tag as `int(now.Sub(tag.created).Hours() / 24)`, i.e. truncation toward zero of
the exact duration divided by 24 hours; on second-resolution timestamps this is
exactly truncated division of the difference in seconds by 86400, which is what
`ageDays` below computes with `Int.tdiv` (truncation toward zero, matching Go's
`int(...)` conversion also for negative, i.e. future-dated, differences).

Regular-expression compilation and matching (`regexp.Compile` followed by
`FindStringIndex != nil`), the registry client (`Tags`, `TagInfo`, `DeleteTag`)
and the catalog are external collaborators; they are modelled as an explicit
environment `RegistryEnv` of oracle functions, so that every claim is stated for
all behaviours of the collaborators.
-/

/-- `PurgeConfig` of `registry/tasks.go`: one repo regex, one tag regex and the
two retention thresholds.  Go's `int` fields are modelled as `Int`. -/
structure PurgeConfig where
  repoRegex : String
  tagsRegex : String
  tagsKeepDays : Int
  tagsKeepCount : Int
deriving DecidableEq, Repr

/-- `TagConfig` of the second variant: a tag regex plus thresholds; a repo rule
owns an ordered list of these. -/
structure TagConfig where
  tagsRegex : String
  tagsKeepDays : Int
  tagsKeepCount : Int
deriving DecidableEq, Repr

/-- `PurgeConfig` of the second variant: repo regex plus ordered tag rules. -/
structure PurgeConfigV2 where
  repoRegex : String
  tags : List TagConfig
deriving DecidableEq, Repr

/-- `tagData`: a tag name together with its creation timestamp (seconds). -/
structure tagData where
  name : String
  created : Int
deriving DecidableEq, Repr

/-- `delta := int(now.Sub(tag.created).Hours() / 24)`: age of a tag in whole
days, truncated toward zero (timestamps in seconds, 86400 seconds per day). -/
def ageDays (now created : Int) : Int :=
  Int.tdiv (now - created) 86400

/-- The age test of the retention loop: `delta > purgeConfig.TagsKeepDays`. -/
def stale (keepDays now : Int) (t : tagData) : Bool :=
  keepDays < ageDays now t.created

/-- `sort.Sort(sortedTags)` with `Less(i,j) = created_i.After(created_j)`:
sorts the group newest-first.  Go's sort is unstable; a stable sort realises
one of its admissible outcomes deterministically (the spec explicitly allows a
stable sort for the unspecified tie-break). -/
def sortNewestFirst (l : List tagData) : List tagData :=
  List.insertionSort (fun a b => b.created ≤ a.created) l

/-- The retention-days loop: one pass over the (already ordered) group,
appending each stale tag's name to `purgeTags` and each fresh tag's name to
`keepTags`, preserving traversal order in both output lists. -/
def retentionSplit (keepDays now : Int) : List tagData → List String × List String
  | [] => ([], [])
  | t :: rest =>
    let acc := retentionSplit keepDays now rest
    if stale keepDays now t then (t.name :: acc.1, acc.2)
    else (acc.1, t.name :: acc.2)

/-- The "keep minimal count of tags" block, shared verbatim by both variants:
`total` is the length of the slice the variant measures (`len(tagsFromRepo)`
resp. `len(tags)`), `pk` is the pair `(purgeTags, keepTags)` built by the
retention loop.  When the kept count falls short of `TagsKeepCount`, the first
`TagsKeepCount` entries of `purgeTags` are rescued if `purgeTags` is longer
than that, otherwise all of `purgeTags` is rescued. -/
def enforceKeepCount (keepCount : Int) (total : Nat) (pk : List String × List String) :
    List String × List String :=
  if (total : Int) - pk.1.length < keepCount then
    if (pk.1.length : Int) > keepCount then
      (pk.1.drop keepCount.toNat, pk.2 ++ pk.1.take keepCount.toNat)
    else ([], pk.2 ++ pk.1)
  else pk

/-- The partition of one retention group in `registry/tasks.go`: sort the group
newest-first, run the retention-days loop over the sorted list, then enforce
the count floor.  Returns `(purgeTags, keepTags)`. -/
def partitionGroup (cfg : PurgeConfig) (now : Int) (group : List tagData) :
    List String × List String :=
  let sorted := sortNewestFirst group
  enforceKeepCount cfg.tagsKeepCount sorted.length
    (retentionSplit cfg.tagsKeepDays now sorted)

/-- The partition of one retention group in the second variant.  It computes
`sortedTags` and stores it back into the map, but its retention loop iterates
`tags`, the pre-sort slice bound by `range` before the map entry was replaced —
so the tentative-purge list is built in the group's original order, and
`len(tags)` (the unsorted slice) is the total measured by the floor check. -/
def partitionGroupV2 (cfg : TagConfig) (now : Int) (group : List tagData) :
    List String × List String :=
  let _sortedTags := sortNewestFirst group
  enforceKeepCount cfg.tagsKeepCount group.length
    (retentionSplit cfg.tagsKeepDays now group)

example : partitionGroup ⟨".*", ".*", 30, 2⟩ (300 * 86400)
    [⟨"t1", 300 * 86400 - 1 * 86400⟩, ⟨"t10", 300 * 86400 - 10 * 86400⟩,
     ⟨"t40", 300 * 86400 - 40 * 86400⟩, ⟨"t90", 300 * 86400 - 90 * 86400⟩,
     ⟨"t200", 300 * 86400 - 200 * 86400⟩] =
    (["t40", "t90", "t200"], ["t1", "t10"]) := by decide

/-- The external collaborators of one purge run, as oracles:
* `tags repo` models `client.Tags(repo)`;
* `tagCreated repo tag` models `client.TagInfo(repo, tag, true)` followed by
  the gjson extraction of the creation time, with `none` standing for a
  missing v1 manifest (`infoV1 == ""`);
* `compile pattern` models `regexp.Compile`: `none` when the pattern does not
  compile, otherwise the predicate `fun s => FindStringIndex(s) != nil`
  (substring-match semantics). -/
structure RegistryEnv where
  tags : String → List String
  tagCreated : String → String → Option Int
  compile : String → Option (String → Bool)

/-- Outcome of resolving the repository rule in `analyzeRepo`'s first loop. -/
inductive ResolveResult (α : Type) where
  | abortBadRegex : ResolveResult α
  | notFound : ResolveResult α
  | found : α → ResolveResult α
deriving DecidableEq, Repr

/-- The repo-rule loop of `analyzeRepo`: compile each rule's `RepoRegex` in
declared order; a compile error returns from `analyzeRepo` (abort), a match
selects the rule and breaks, and falling off the loop leaves
`purgeConfig == nil` (not found). -/
def resolveRepoRule (compile : String → Option (String → Bool)) (repo : String) :
    List PurgeConfig → ResolveResult PurgeConfig
  | [] => .notFound
  | c :: rest =>
    match compile c.repoRegex with
    | none => .abortBadRegex
    | some re => if re repo then .found c else resolveRepoRule compile repo rest

/-- The per-tag loop of `analyzeRepo` in `registry/tasks.go`: for each tag,
compile the selected rule's `TagsRegex` (a compile error returns from
`analyzeRepo`, modelled as `none`), skip the tag when the regex does not
match or the v1 manifest is missing, and otherwise append
`tagData{name, created}` to the group in traversal order. -/
def collectTags (env : RegistryEnv) (cfg : PurgeConfig) (repo : String) :
    List String → Option (List tagData)
  | [] => some []
  | tag :: rest =>
    match env.compile cfg.tagsRegex with
    | none => none
    | some re =>
      if re tag then
        match env.tagCreated repo tag with
        | none => collectTags env cfg repo rest
        | some created =>
          match collectTags env cfg repo rest with
          | none => none
          | some l => some (⟨tag, created⟩ :: l)
      else collectTags env cfg repo rest

/-- `repo = fmt.Sprintf("%s/%s", namespace, repo)` unless the namespace is the
default namespace `"library"`. -/
def fullRepoName (ns repo : String) : String :=
  if ns ≠ "library" then ns ++ "/" ++ repo else repo

/-- The delete loop of `registry/tasks.go`:
`for _, repo := range purgeTags { if dryRun { continue }; for _, tag := range
purgeTags { client.DeleteTag(repo, tag) } }`.  The outer loop variable shadows
the repository name with a purged tag name, so the function's `repo` argument
is never used in a call; each emitted pair is (first argument, second
argument) of one `client.DeleteTag` call, in order. -/
def deleteCallsV1 (repo : String) (dryRun : Bool) (purgeTags : List String) :
    List (String × String) :=
  (purgeTags.map (fun shadowedRepo =>
    if dryRun then [] else purgeTags.map (fun tag => (shadowedRepo, tag)))).flatten

/-- The delete loop of the second variant:
`for _, tag := range purgeTags { if dryRun { continue }; client.DeleteTag(repo,
tag) }` — one call per purged tag, addressed with the repository's name. -/
def deleteCallsV2 (repo : String) (dryRun : Bool) (purgeTags : List String) :
    List (String × String) :=
  (purgeTags.map (fun tag => if dryRun then [] else [(repo, tag)])).flatten

/-- How `analyzeRepo` ended for one repository. -/
inductive RepoStatus where
  | abortedRegex : RepoStatus
  | noRuleMatch : RepoStatus
  | completed : RepoStatus
deriving DecidableEq, Repr

/-- Everything observable from one `analyzeRepo` call: the kept and purged tag
names and the `client.DeleteTag` calls issued (as (first, second) argument
pairs, in order). -/
structure RepoOutcome where
  status : RepoStatus
  keep : List String
  purge : List String
  deletes : List (String × String)
deriving DecidableEq, Repr

/-- `analyzeRepo` of `registry/tasks.go`: build the full repo name, resolve the
repo rule (abort on a bad repo regex, skip on no match), return early when the
repo has no tags, collect the matching tags with their creation times (abort
on a bad tag regex), partition them by retention days and count floor, then
run the delete loop (which issues nothing in dry-run mode). -/
def analyzeRepo (env : RegistryEnv) (ns repoName : String) (cfgs : List PurgeConfig)
    (now : Int) (dryRun : Bool) : RepoOutcome :=
  let repo := fullRepoName ns repoName
  match resolveRepoRule env.compile repo cfgs with
  | .abortBadRegex => ⟨.abortedRegex, [], [], []⟩
  | .notFound => ⟨.noRuleMatch, [], [], []⟩
  | .found cfg =>
    if env.tags repo = [] then ⟨.completed, [], [], []⟩
    else
      match collectTags env cfg repo (env.tags repo) with
      | none => ⟨.abortedRegex, [], [], []⟩
      | some group =>
        let pk := partitionGroup cfg now group
        ⟨.completed, pk.2, pk.1, deleteCallsV1 repo dryRun pk.1⟩

/-- The catch-all configuration `PurgeOldTags` appends:
`PurgeConfig{RepoRegex: ".*", TagsRegex: ".*", TagsKeepDays: purgeTagsKeepDays,
TagsKeepCount: purgeTagsKeepCount}`. -/
def globalPurgeConfig (keepDays keepCount : Int) : PurgeConfig :=
  ⟨".*", ".*", keepDays, keepCount⟩

/-- `PurgeOldTags` of `registry/tasks.go`: append the global catch-all
configuration, then call `analyzeRepo` for every (namespace, repo) pair of the
catalog.  The catalog is passed as the flattened list of pairs the two nested
`for` loops enumerate. -/
def purgeOldTags (env : RegistryEnv) (dryRun : Bool) (defKeepDays defKeepCount : Int)
    (cfgs : List PurgeConfig) (catalog : List (String × String)) (now : Int) :
    List RepoOutcome :=
  let allCfgs := cfgs ++ [globalPurgeConfig defKeepDays defKeepCount]
  catalog.map (fun nsRepo => analyzeRepo env nsRepo.1 nsRepo.2 allCfgs now dryRun)

/-! ### Helper lemmas about the partition core -/

/-- The single-pass retention loop equals filtering the stale and fresh tags
(in traversal order) and projecting their names. -/
theorem retentionSplit_eq_filter (keepDays now : Int) (l : List tagData) :
    retentionSplit keepDays now l =
      ((l.filter (stale keepDays now)).map tagData.name,
       (l.filter (fun t => !stale keepDays now t)).map tagData.name) := by
  induction l with
  | nil => rfl
  | cons t rest ih =>
    simp only [retentionSplit, ih, List.filter_cons]
    cases h : stale keepDays now t <;> simp [h]

/-- The retention loop loses no tag: the two output lists' lengths add up to
the input length. -/
theorem retentionSplit_length (keepDays now : Int) (l : List tagData) :
    (retentionSplit keepDays now l).1.length + (retentionSplit keepDays now l).2.length
      = l.length := by
  induction l with
  | nil => rfl
  | cons t rest ih =>
    simp only [retentionSplit]
    cases h : stale keepDays now t <;> simp [h] <;> omega

/-- The count-floor block only moves entries between the two lists: the
concatenation keep ++ purge is preserved up to permutation. -/
theorem enforceKeepCount_perm (K : Int) (total : Nat) (pk : List String × List String) :
    ((enforceKeepCount K total pk).2 ++ (enforceKeepCount K total pk).1).Perm
      (pk.2 ++ pk.1) := by
  unfold enforceKeepCount
  split
  · split
    · rw [List.append_assoc]
      rw [List.take_append_drop]
    · simp
  · exact List.Perm.refl _

/-- Sorting the group is a permutation of the group. -/
theorem sortNewestFirst_perm (l : List tagData) : (sortNewestFirst l).Perm l := by
  unfold sortNewestFirst
  exact List.perm_insertionSort _ l

/-- Sorting preserves length. -/
theorem sortNewestFirst_length (l : List tagData) : (sortNewestFirst l).length = l.length :=
  (sortNewestFirst_perm l).length_eq

/-- The `tasks.go` partition is a complete split: keep ++ purge is a
permutation of the group's tag names. -/
theorem partitionGroup_perm (cfg : PurgeConfig) (now : Int) (group : List tagData) :
    ((partitionGroup cfg now group).2 ++ (partitionGroup cfg now group).1).Perm
      (group.map tagData.name) := by
  unfold partitionGroup
  refine (enforceKeepCount_perm _ _ _).trans ?_
  rw [retentionSplit_eq_filter]
  refine List.Perm.trans ?_ ((sortNewestFirst_perm group).map tagData.name)
  rw [← List.map_append]
  refine List.Perm.map _ ?_
  exact (List.perm_append_comm).trans (List.filter_append_perm _ _)

/-- The second variant's partition is likewise a complete split. -/
theorem partitionGroupV2_perm (cfg : TagConfig) (now : Int) (group : List tagData) :
    ((partitionGroupV2 cfg now group).2 ++ (partitionGroupV2 cfg now group).1).Perm
      (group.map tagData.name) := by
  unfold partitionGroupV2
  refine (enforceKeepCount_perm _ _ _).trans ?_
  rw [retentionSplit_eq_filter]
  rw [← List.map_append]
  refine List.Perm.map _ ?_
  exact (List.perm_append_comm).trans (List.filter_append_perm _ _)

/-- Keep-list length after the count-floor block: at least min(keepCount,
total), provided keepCount is non-negative and the two lists account for
exactly `total` entries. -/
theorem enforceKeepCount_keep_length (K : Int) (total : Nat)
    (pk : List String × List String) (hK : 0 ≤ K)
    (htot : pk.1.length + pk.2.length = total) :
    min K (total : Int) ≤ ((enforceKeepCount K total pk).2.length : Int) := by
  unfold enforceKeepCount
  split
  · split
    · simp only [List.length_append, List.length_take]
      omega
    · simp only [List.length_append]
      omega
  · omega

/-- With keepCount = 0 the count-floor block is a no-op (the shortfall test
`total - |purge| < 0` can never hold). -/
theorem enforceKeepCount_zero (total : Nat) (pk : List String × List String)
    (h : pk.1.length ≤ total) :
    enforceKeepCount 0 total pk = pk := by
  unfold enforceKeepCount
  rw [if_neg]
  omega

/-- When the whole group fits under the count floor (total ≤ keepCount), the
count-floor block empties the purge list. -/
theorem enforceKeepCount_purge_nil (K : Int) (total : Nat)
    (pk : List String × List String) (htot : pk.1.length + pk.2.length = total)
    (h : (total : Int) ≤ K) :
    (enforceKeepCount K total pk).1 = [] := by
  unfold enforceKeepCount
  split
  · split
    · omega
    · rfl
  · have hnil : pk.1.length = 0 := by omega
    exact List.length_eq_zero.mp hnil

/-- Unfolding equation for `partitionGroup`. -/
theorem partitionGroup_def (cfg : PurgeConfig) (now : Int) (group : List tagData) :
    partitionGroup cfg now group =
      enforceKeepCount cfg.tagsKeepCount (sortNewestFirst group).length
        (retentionSplit cfg.tagsKeepDays now (sortNewestFirst group)) := rfl

/-- Unfolding equation for `partitionGroupV2`. -/
theorem partitionGroupV2_def (cfg : TagConfig) (now : Int) (group : List tagData) :
    partitionGroupV2 cfg now group =
      enforceKeepCount cfg.tagsKeepCount group.length
        (retentionSplit cfg.tagsKeepDays now group) := rfl

/-- Lengths of the two lists produced by the `tasks.go` partition sum to the
group size. -/
theorem partitionGroup_length (cfg : PurgeConfig) (now : Int) (group : List tagData) :
    (partitionGroup cfg now group).2.length + (partitionGroup cfg now group).1.length
      = group.length := by
  have h := (partitionGroup_perm cfg now group).length_eq
  simpa [List.length_append] using h

/-- Lengths of the two lists produced by the second variant's partition sum to
the group size. -/
theorem partitionGroupV2_length (cfg : TagConfig) (now : Int) (group : List tagData) :
    (partitionGroupV2 cfg now group).2.length + (partitionGroupV2 cfg now group).1.length
      = group.length := by
  have h := (partitionGroupV2_perm cfg now group).length_eq
  simpa [List.length_append] using h

/-! ### Claim theorems -/

/-- C2: For every retention group and current time (and in both source
variants), the partition is a complete split: |keep| + |purge| = |group|, and
keep ++ purge is a permutation of the group's tag names — so every group
member lands in exactly one of the two lists (with multiplicity) and no
outside tag appears in either. -/
theorem c2_partition_complete_split (cfg : PurgeConfig) (tcfg : TagConfig)
    (now : Int) (group : List tagData) :
    ((partitionGroup cfg now group).2.length + (partitionGroup cfg now group).1.length
        = group.length
      ∧ ((partitionGroup cfg now group).2 ++ (partitionGroup cfg now group).1).Perm
          (group.map tagData.name))
    ∧ ((partitionGroupV2 tcfg now group).2.length
          + (partitionGroupV2 tcfg now group).1.length = group.length
      ∧ ((partitionGroupV2 tcfg now group).2 ++ (partitionGroupV2 tcfg now group).1).Perm
          (group.map tagData.name)) :=
  ⟨⟨partitionGroup_length cfg now group, partitionGroup_perm cfg now group⟩,
   ⟨partitionGroupV2_length tcfg now group, partitionGroupV2_perm tcfg now group⟩⟩

/-- C3: For every retention group, non-negative keepCount and current time
(and in both source variants), the final keep list has at least
min(keepCount, |group|) entries. -/
theorem c3_keep_count_floor (cfg : PurgeConfig) (tcfg : TagConfig) (now : Int)
    (group : List tagData) (h1 : 0 ≤ cfg.tagsKeepCount) (h2 : 0 ≤ tcfg.tagsKeepCount) :
    min cfg.tagsKeepCount (group.length : Int)
        ≤ ((partitionGroup cfg now group).2.length : Int)
    ∧ min tcfg.tagsKeepCount (group.length : Int)
        ≤ ((partitionGroupV2 tcfg now group).2.length : Int) := by
  constructor
  · have h := enforceKeepCount_keep_length cfg.tagsKeepCount (sortNewestFirst group).length
      (retentionSplit cfg.tagsKeepDays now (sortNewestFirst group)) h1
      (retentionSplit_length cfg.tagsKeepDays now (sortNewestFirst group))
    rw [partitionGroup_def]
    rw [show ((group.length : Nat) : Int) = (((sortNewestFirst group).length : Nat) : Int) by
      rw [sortNewestFirst_length]]
    exact h
  · rw [partitionGroupV2_def]
    exact enforceKeepCount_keep_length tcfg.tagsKeepCount group.length
      (retentionSplit tcfg.tagsKeepDays now group) h2
      (retentionSplit_length tcfg.tagsKeepDays now group)

/-- C4: With keepCount = 0 the shortfall test `total - |purge| < 0` never
holds, so no rescue happens: the purge list is exactly (as a multiset — and
for the second variant exactly as a list) the tags whose computed age in days
exceeds keepDays, and the keep list is exactly the remaining tags. -/
theorem c4_keepcount_zero_no_rescue (cfg : PurgeConfig) (tcfg : TagConfig) (now : Int)
    (group : List tagData) (h1 : cfg.tagsKeepCount = 0) (h2 : tcfg.tagsKeepCount = 0) :
    ((partitionGroup cfg now group).1.Perm
          ((group.filter (stale cfg.tagsKeepDays now)).map tagData.name)
      ∧ (partitionGroup cfg now group).2.Perm
          ((group.filter (fun t => !stale cfg.tagsKeepDays now t)).map tagData.name))
    ∧ ((partitionGroupV2 tcfg now group).1 =
          (group.filter (stale tcfg.tagsKeepDays now)).map tagData.name
      ∧ (partitionGroupV2 tcfg now group).2 =
          (group.filter (fun t => !stale tcfg.tagsKeepDays now t)).map tagData.name) := by
  have hv1 : partitionGroup cfg now group =
      retentionSplit cfg.tagsKeepDays now (sortNewestFirst group) := by
    rw [partitionGroup_def, h1]
    refine enforceKeepCount_zero _ _ ?_
    have := retentionSplit_length cfg.tagsKeepDays now (sortNewestFirst group)
    omega
  have hv2 : partitionGroupV2 tcfg now group =
      retentionSplit tcfg.tagsKeepDays now group := by
    rw [partitionGroupV2_def, h2]
    refine enforceKeepCount_zero _ _ ?_
    have := retentionSplit_length tcfg.tagsKeepDays now group
    omega
  refine ⟨⟨?_, ?_⟩, ?_, ?_⟩
  · rw [hv1, retentionSplit_eq_filter]
    exact ((sortNewestFirst_perm group).filter _).map tagData.name
  · rw [hv1, retentionSplit_eq_filter]
    exact ((sortNewestFirst_perm group).filter _).map tagData.name
  · rw [hv2, retentionSplit_eq_filter]
  · rw [hv2, retentionSplit_eq_filter]

/-- C10: When the whole group fits under the count floor (|group| ≤
keepCount), the purge list is empty and every member of the group is kept,
regardless of keepDays and of the artifacts' ages — in both source
variants. -/
theorem c10_small_group_all_kept (cfg : PurgeConfig) (tcfg : TagConfig) (now : Int)
    (group : List tagData)
    (h1 : (group.length : Int) ≤ cfg.tagsKeepCount)
    (h2 : (group.length : Int) ≤ tcfg.tagsKeepCount) :
    ((partitionGroup cfg now group).1 = []
      ∧ (partitionGroup cfg now group).2.Perm (group.map tagData.name))
    ∧ ((partitionGroupV2 tcfg now group).1 = []
      ∧ (partitionGroupV2 tcfg now group).2.Perm (group.map tagData.name)) := by
  have p1 : (partitionGroup cfg now group).1 = [] := by
    rw [partitionGroup_def]
    refine enforceKeepCount_purge_nil _ _ _ (retentionSplit_length _ _ _) ?_
    rw [show (((sortNewestFirst group).length : Nat) : Int) = ((group.length : Nat) : Int) by
      rw [sortNewestFirst_length]]
    exact h1
  have p2 : (partitionGroupV2 tcfg now group).1 = [] := by
    rw [partitionGroupV2_def]
    exact enforceKeepCount_purge_nil _ _ _ (retentionSplit_length _ _ _) h2
  refine ⟨⟨p1, ?_⟩, p2, ?_⟩
  · have h := partitionGroup_perm cfg now group
    rwa [p1, List.append_nil] at h
  · have h := partitionGroupV2_perm tcfg now group
    rwa [p2, List.append_nil] at h

/-! ### Concrete scenarios -/

/-- Scenario B's current time: day 300, in seconds. -/
def scenarioBNow : Int := 300 * 86400

/-- Scenario B's group: five tags aged 1, 10, 40, 90 and 200 days, in the
order the registry returns them. -/
def scenarioBGroup : List tagData :=
  [⟨"t1", scenarioBNow - 1 * 86400⟩, ⟨"t10", scenarioBNow - 10 * 86400⟩,
   ⟨"t40", scenarioBNow - 40 * 86400⟩, ⟨"t90", scenarioBNow - 90 * 86400⟩,
   ⟨"t200", scenarioBNow - 200 * 86400⟩]

/-- Scenario B's rule: keepDays = 30, keepCount = 4. -/
def scenarioBConfig : PurgeConfig := ⟨".*", ".*", 30, 4⟩

/-- C1 is false on the code: in Scenario B the tag aged 200 days is not in
the purge list at all (so the partition does not return purge = {200}).  The
code rescues the whole tentative-purge list whenever its length does not
exceed keepCount — it does not rescue just the shortfall. -/
theorem c1_counterexample :
    "t200" ∉ (partitionGroup scenarioBConfig scenarioBNow scenarioBGroup).1 := by
  decide

/-- C1 amended: for ages [1, 10, 40, 90, 200], keepDays = 30, keepCount = 4,
the age rule keeps the two fresh tags and tentatively purges [t40, t90, t200]
in newest-first order; the kept count 2 falls short of keepCount 4, and since
the tentative purge count 3 is not greater than keepCount 4 the code rescues
all three tentatively-purged entries, returning purge = {} and
keep = {1, 10, 40, 90, 200}. -/
theorem c1_amended :
    retentionSplit scenarioBConfig.tagsKeepDays scenarioBNow
        (sortNewestFirst scenarioBGroup) = (["t40", "t90", "t200"], ["t1", "t10"])
    ∧ partitionGroup scenarioBConfig scenarioBNow scenarioBGroup
        = ([], ["t1", "t10", "t40", "t90", "t200"]) := by
  decide

/-- The rescue-order scenario: two stale tags (aged 200 and 40 days), the
older one first in registry order; keepDays = 30, keepCount = 1. -/
def rescueNow : Int := 300 * 86400

/-- The rescue-order group in registry (pre-sort) order: oldest first. -/
def rescueGroup : List tagData :=
  [⟨"t200", rescueNow - 200 * 86400⟩, ⟨"t40", rescueNow - 40 * 86400⟩]

/-- The rescue-order scenario's rule in the second variant's schema. -/
def rescueTagConfig : TagConfig := ⟨".*", 30, 1⟩

/-- The rescue-order scenario's rule in the `tasks.go` schema. -/
def rescuePurgeConfig : PurgeConfig := ⟨".*", ".*", 30, 1⟩

/-- C5 is violated by the second variant: `sortNewestFirst` does put t40
before t200, but that variant's retention loop iterates the pre-sort slice,
so its tentative-purge list is in registry order [t200, t40] and the rescued
first entry is t200, the oldest purge candidate, leaving the newer t40
purged.  `registry/tasks.go` iterates the sorted list and rescues the newest
candidate t40. -/
theorem c5_rescue_not_newest :
    sortNewestFirst rescueGroup
        = [⟨"t40", rescueNow - 40 * 86400⟩, ⟨"t200", rescueNow - 200 * 86400⟩]
    ∧ partitionGroupV2 rescueTagConfig rescueNow rescueGroup = (["t40"], ["t200"])
    ∧ partitionGroup rescuePurgeConfig rescueNow rescueGroup = (["t200"], ["t40"]) := by
  decide

/-- C7 is violated by `registry/tasks.go`: its delete loop ranges over
`purgeTags` twice, the outer loop variable shadowing the repository name, so
for purge list ["a", "b"] of repository "myrepo" it issues four DeleteTag
calls, each addressed to a tag name instead of "myrepo".  The second variant
issues exactly one correctly-addressed call per purged tag. -/
theorem c7_delete_loop_shadowing :
    deleteCallsV1 "myrepo" false ["a", "b"]
        = [("a", "a"), ("a", "b"), ("b", "a"), ("b", "b")]
    ∧ deleteCallsV2 "myrepo" false ["a", "b"] = [("myrepo", "a"), ("myrepo", "b")] := by
  decide

/-! ### Dry-run, error handling and rule resolution -/

/-- In dry-run mode the `tasks.go` delete loop hits `continue` on every outer
iteration and issues no call. -/
theorem deleteCallsV1_dryRun (r : String) (l : List String) :
    deleteCallsV1 r true l = [] := by
  unfold deleteCallsV1
  simp

/-- `analyzeRepo` threads `purgeDryRun` only into the delete loop: the keep
and purge lists are identical in both modes, and a dry run issues no
DeleteTag call. -/
theorem analyzeRepo_dryRun (env : RegistryEnv) (ns repoName : String)
    (cfgs : List PurgeConfig) (now : Int) :
    (analyzeRepo env ns repoName cfgs now true).keep
        = (analyzeRepo env ns repoName cfgs now false).keep
    ∧ (analyzeRepo env ns repoName cfgs now true).purge
        = (analyzeRepo env ns repoName cfgs now false).purge
    ∧ (analyzeRepo env ns repoName cfgs now true).deletes = [] := by
  simp only [analyzeRepo]
  cases resolveRepoRule env.compile (fullRepoName ns repoName) cfgs with
  | abortBadRegex => exact ⟨rfl, rfl, rfl⟩
  | notFound => exact ⟨rfl, rfl, rfl⟩
  | found cfg =>
    by_cases h : env.tags (fullRepoName ns repoName) = []
    · simp only [if_pos h]
      exact ⟨trivial, trivial, trivial⟩
    · simp only [if_neg h]
      cases collectTags env cfg (fullRepoName ns repoName)
          (env.tags (fullRepoName ns repoName)) with
      | none => exact ⟨rfl, rfl, rfl⟩
      | some group =>
        exact ⟨rfl, rfl, deleteCallsV1_dryRun (fullRepoName ns repoName)
          (partitionGroup cfg now group).1⟩

/-- C6: For every input (same catalog, tags, timestamps, configuration and
current time), a run with dryRun = true computes per repository exactly the
same keep and purge lists as a run with dryRun = false, and the dry run
issues zero DeleteTag calls in total. -/
theorem c6_dry_run_same_decisions (env : RegistryEnv) (dD dC : Int)
    (cfgs : List PurgeConfig) (catalog : List (String × String)) (now : Int) :
    (purgeOldTags env true dD dC cfgs catalog now).map (fun o => (o.keep, o.purge))
        = (purgeOldTags env false dD dC cfgs catalog now).map (fun o => (o.keep, o.purge))
    ∧ ((purgeOldTags env true dD dC cfgs catalog now).map RepoOutcome.deletes).flatten
        = [] := by
  constructor
  · unfold purgeOldTags
    simp only [List.map_map]
    refine List.map_congr_left ?_
    intro p _
    obtain ⟨h1, h2, _⟩ := analyzeRepo_dryRun env p.1 p.2
      (cfgs ++ [globalPurgeConfig dD dC]) now
    simp only [Function.comp_apply, h1, h2]
  · rw [List.flatten_eq_nil_iff]
    intro l hl
    unfold purgeOldTags at hl
    simp only [List.map_map, List.mem_map] at hl
    obtain ⟨p, _, rfl⟩ := hl
    exact (analyzeRepo_dryRun env p.1 p.2 (cfgs ++ [globalPurgeConfig dD dC]) now).2.2

/-- A tag regex that does not compile aborts the tag loop on its first
iteration. -/
theorem collectTags_badRegex (env : RegistryEnv) (cfg : PurgeConfig) (repo : String)
    (tags : List String) (hbad : env.compile cfg.tagsRegex = none) (hne : tags ≠ []) :
    collectTags env cfg repo tags = none := by
  cases tags with
  | nil => exact absurd rfl hne
  | cons t rest => simp [collectTags, hbad]

/-- C8: If, while processing one repository, the rule resolution hits a repo
regex that does not compile, or the resolved rule's tag regex does not
compile (and there is at least one tag to check it on), then that entire
repository is aborted — no tag of it is kept, purged or deleted — while the
run still produces one outcome per catalog entry, each computed by
`analyzeRepo` independently of the failing repository, so the scan continues
with the next repository and the overall run completes. -/
theorem c8_bad_regex_aborts_repo_only (env : RegistryEnv) (ns repoName : String)
    (cfgs : List PurgeConfig) (catalog : List (String × String))
    (dD dC now : Int) (dryRun : Bool)
    (h : resolveRepoRule env.compile (fullRepoName ns repoName)
            (cfgs ++ [globalPurgeConfig dD dC]) = .abortBadRegex
      ∨ ∃ cfg, resolveRepoRule env.compile (fullRepoName ns repoName)
            (cfgs ++ [globalPurgeConfig dD dC]) = .found cfg
          ∧ env.compile cfg.tagsRegex = none
          ∧ env.tags (fullRepoName ns repoName) ≠ []) :
    analyzeRepo env ns repoName (cfgs ++ [globalPurgeConfig dD dC]) now dryRun
        = ⟨.abortedRegex, [], [], []⟩
    ∧ purgeOldTags env dryRun dD dC cfgs catalog now
        = catalog.map (fun p =>
            analyzeRepo env p.1 p.2 (cfgs ++ [globalPurgeConfig dD dC]) now dryRun) := by
  refine ⟨?_, rfl⟩
  simp only [analyzeRepo]
  rcases h with hres | ⟨cfg, hres, hbad, hne⟩
  · rw [hres]
  · rw [hres]
    simp only [if_neg hne]
    rw [collectTags_badRegex env cfg (fullRepoName ns repoName)
      (env.tags (fullRepoName ns repoName)) hbad hne]

/-- When every configured repo regex compiles and the catch-all `".*"`
(appended by `PurgeOldTags`) matches everything, resolution selects some
rule. -/
theorem resolveRepoRule_catchall_found (env : RegistryEnv) (repo : String)
    (cfgs : List PurgeConfig) (dD dC : Int)
    (hstar : env.compile ".*" = some (fun _ => true))
    (hall : ∀ c ∈ cfgs, (env.compile c.repoRegex).isSome = true) :
    ∃ c, resolveRepoRule env.compile repo (cfgs ++ [globalPurgeConfig dD dC])
        = .found c := by
  induction cfgs with
  | nil =>
    refine ⟨globalPurgeConfig dD dC, ?_⟩
    simp [resolveRepoRule, globalPurgeConfig, hstar]
  | cons c rest ih =>
    obtain ⟨re, hre⟩ := Option.isSome_iff_exists.mp (hall c (by simp))
    by_cases hm : re repo
    · exact ⟨c, by simp [resolveRepoRule, hre, hm]⟩
    · obtain ⟨d, hd⟩ := ih (fun x hx => hall x (by simp [hx]))
      exact ⟨d, by simp [resolveRepoRule, hre, hm, hd]⟩

/-- C9: When every configured repository regex compiles (and `".*"` compiles
to the match-everything predicate, as it does under Go's regexp), resolution
over the configuration list with the catch-all appended by `PurgeOldTags`
never returns NotFound: the `purgeConfig == nil` skip branch is
unreachable. -/
theorem c9_catchall_never_notfound (env : RegistryEnv) (repo : String)
    (cfgs : List PurgeConfig) (dD dC : Int)
    (hstar : env.compile ".*" = some (fun _ => true))
    (hall : ∀ c ∈ cfgs, (env.compile c.repoRegex).isSome = true) :
    resolveRepoRule env.compile repo (cfgs ++ [globalPurgeConfig dD dC])
        ≠ ResolveResult.notFound := by
  obtain ⟨c, hc⟩ := resolveRepoRule_catchall_found env repo cfgs dD dC hstar hall
  rw [hc]
  intro hcontra
  exact ResolveResult.noConfusion hcontra

/-! ### Witnesses -/

/-- Witness for the C3 theorem: both keepCounts of the Scenario B rules are
non-negative and the floor bound holds on the Scenario B group. -/
theorem c3_keep_count_floor_witness :
    ((0 : Int) ≤ scenarioBConfig.tagsKeepCount ∧ (0 : Int) ≤ rescueTagConfig.tagsKeepCount)
    ∧ (min scenarioBConfig.tagsKeepCount ((scenarioBGroup.length : Nat) : Int)
          ≤ ((partitionGroup scenarioBConfig scenarioBNow scenarioBGroup).2.length : Int)
      ∧ min rescueTagConfig.tagsKeepCount ((scenarioBGroup.length : Nat) : Int)
          ≤ ((partitionGroupV2 rescueTagConfig scenarioBNow scenarioBGroup).2.length : Int)) :=
  ⟨⟨by decide, by decide⟩,
   c3_keep_count_floor scenarioBConfig rescueTagConfig scenarioBNow scenarioBGroup
     (by decide) (by decide)⟩

/-- The Scenario B rule with the count floor disabled. -/
def zeroCountConfig : PurgeConfig := ⟨".*", ".*", 30, 0⟩

/-- The same zero-floor rule in the second variant's schema. -/
def zeroCountTagConfig : TagConfig := ⟨".*", 30, 0⟩

/-- Witness for the C4 theorem on the Scenario B group with keepCount = 0. -/
theorem c4_keepcount_zero_witness :
    (zeroCountConfig.tagsKeepCount = 0 ∧ zeroCountTagConfig.tagsKeepCount = 0)
    ∧ (((partitionGroup zeroCountConfig scenarioBNow scenarioBGroup).1.Perm
            ((scenarioBGroup.filter (stale zeroCountConfig.tagsKeepDays scenarioBNow)).map
              tagData.name)
        ∧ (partitionGroup zeroCountConfig scenarioBNow scenarioBGroup).2.Perm
            ((scenarioBGroup.filter
                (fun t => !stale zeroCountConfig.tagsKeepDays scenarioBNow t)).map
              tagData.name))
      ∧ ((partitionGroupV2 zeroCountTagConfig scenarioBNow scenarioBGroup).1 =
            (scenarioBGroup.filter (stale zeroCountTagConfig.tagsKeepDays scenarioBNow)).map
              tagData.name
        ∧ (partitionGroupV2 zeroCountTagConfig scenarioBNow scenarioBGroup).2 =
            (scenarioBGroup.filter
                (fun t => !stale zeroCountTagConfig.tagsKeepDays scenarioBNow t)).map
              tagData.name)) :=
  ⟨⟨rfl, rfl⟩,
   c4_keepcount_zero_no_rescue zeroCountConfig zeroCountTagConfig scenarioBNow
     scenarioBGroup rfl rfl⟩

/-- A rule with a count floor larger than the rescue scenario's group. -/
def bigCountConfig : PurgeConfig := ⟨".*", ".*", 30, 5⟩

/-- The same large-floor rule in the second variant's schema. -/
def bigCountTagConfig : TagConfig := ⟨".*", 30, 5⟩

/-- Witness for the C10 theorem: a group of two stale tags under a count
floor of five is kept whole. -/
theorem c10_small_group_witness :
    (((rescueGroup.length : Nat) : Int) ≤ bigCountConfig.tagsKeepCount
      ∧ ((rescueGroup.length : Nat) : Int) ≤ bigCountTagConfig.tagsKeepCount)
    ∧ (((partitionGroup bigCountConfig rescueNow rescueGroup).1 = []
        ∧ (partitionGroup bigCountConfig rescueNow rescueGroup).2.Perm
            (rescueGroup.map tagData.name))
      ∧ ((partitionGroupV2 bigCountTagConfig rescueNow rescueGroup).1 = []
        ∧ (partitionGroupV2 bigCountTagConfig rescueNow rescueGroup).2.Perm
            (rescueGroup.map tagData.name))) :=
  ⟨⟨by decide, by decide⟩,
   c10_small_group_all_kept bigCountConfig bigCountTagConfig rescueNow rescueGroup
     (by decide) (by decide)⟩

/-- An environment whose pattern `"("` does not compile (as under Go's
regexp) while every other pattern compiles to a match-everything regex. -/
def badRegexEnv : RegistryEnv :=
  ⟨fun _ => ["latest"], fun _ _ => some 0,
   fun p => if p = "(" then none else some (fun _ => true)⟩

/-- A configured rule whose repo regex `"("` does not compile. -/
def badRegexConfig : PurgeConfig := ⟨"(", ".*", 30, 5⟩

/-- Witness for the C8 theorem: with the first rule's repo regex failing to
compile, the repository is aborted with no keeps, purges or deletes, and the
run still maps every catalog entry through `analyzeRepo`. -/
theorem c8_bad_regex_witness :
    analyzeRepo badRegexEnv "library" "repo1"
        ([badRegexConfig] ++ [globalPurgeConfig 30 5]) 0 false
        = ⟨.abortedRegex, [], [], []⟩
    ∧ purgeOldTags badRegexEnv false 30 5 [badRegexConfig]
        [("library", "repo1"), ("library", "repo2")] 0
        = [("library", "repo1"), ("library", "repo2")].map (fun p =>
            analyzeRepo badRegexEnv p.1 p.2
              ([badRegexConfig] ++ [globalPurgeConfig 30 5]) 0 false) :=
  c8_bad_regex_aborts_repo_only badRegexEnv "library" "repo1" [badRegexConfig]
    [("library", "repo1"), ("library", "repo2")] 30 5 0 false (Or.inl (by decide))

/-- An environment where every pattern compiles to a match-everything
regex. -/
def allCompileEnv : RegistryEnv :=
  ⟨fun _ => [], fun _ _ => none, fun _ => some (fun _ => true)⟩

/-- Witness for the C9 theorem: with one configured rule whose regex
compiles, resolution with the appended catch-all is not NotFound. -/
theorem c9_catchall_witness :
    resolveRepoRule allCompileEnv.compile "library/app"
        ([⟨"^lib", "v.*", 14, 3⟩] ++ [globalPurgeConfig 30 5])
        ≠ ResolveResult.notFound :=
  c9_catchall_never_notfound allCompileEnv "library/app" [⟨"^lib", "v.*", 14, 3⟩] 30 5
    rfl (by intro c hc; rfl)
